import Mathlib

/-!
Verification of the bounded-integer selector logic of
`stand_alone_examples/integer_picker_example.py` (class `IntegerPicker`).

The stateful Python class is embedded as a structure `IntegerPicker` holding
the integer fields `_value`, `_minimum`, `_maximum` together with the two
configuration flags the value-changing logic reads (`_ascending` and
`_return_unused_navigation_input`).  The `on_selection_change` hook is
modelled by returning the list of `(previous_value, new_value)` pairs the
method would pass to the hook; exceptions (`ValueError`) become `Except`.

The summand handed to `_change_value` can be an integer or one of the float
infinity sentinels `float("inf")` / `float("-inf")` (from the `home`/`end`
keys), so summands are embedded as the inductive type `Summand` and the
intermediate Python expression `new_value = value ± summand` as the extended
integer type `XInt`, with the comparisons against the bounds evaluating
exactly as the float comparisons do in Python.
-/

/-- A summand passed to `_change_value`: either a plain integer or one of the
float infinity sentinels produced by the `home`/`end` key handlers. -/
inductive Summand where
  | int : Int → Summand
  | posInf : Summand
  | negInf : Summand
deriving DecidableEq, Repr

/-- The Python test `summand < 0`. -/
def Summand.isNeg : Summand → Bool
  | .int n => n < 0
  | .posInf => false
  | .negInf => true

/-- The Python test `summand > 0`. -/
def Summand.isPos : Summand → Bool
  | .int n => 0 < n
  | .posInf => true
  | .negInf => false

/-- Negation of a summand (used to relate the descending branch to the
ascending one). -/
def Summand.neg : Summand → Summand
  | .int n => .int (-n)
  | .posInf => .negInf
  | .negInf => .posInf

/-- The value of the Python expression `value + summand` (resp.
`value - summand`): an integer extended with the two infinities. -/
inductive XInt where
  | int : Int → XInt
  | posInf : XInt
  | negInf : XInt
deriving DecidableEq, Repr

/-- Python `value + summand`. -/
def xadd (v : Int) : Summand → XInt
  | .int n => .int (v + n)
  | .posInf => .posInf
  | .negInf => .negInf

/-- Python `value - summand`. -/
def xsub (v : Int) : Summand → XInt
  | .int n => .int (v - n)
  | .posInf => .negInf
  | .negInf => .posInf

/-- Python comparison `new_value > n` for `new_value : XInt`. -/
def XInt.gtInt : XInt → Int → Bool
  | .int m, n => n < m
  | .posInf, _ => true
  | .negInf, _ => false

/-- Python comparison `new_value < n` for `new_value : XInt`. -/
def XInt.ltInt : XInt → Int → Bool
  | .int m, n => m < n
  | .posInf, _ => false
  | .negInf, _ => true

/-- Extract the integer of a finite `XInt`; the fallback is never reached in
`change_value` because an infinite `new_value` always fails the strict bound
comparison guarding the assignment `self._value = new_value`. -/
def XInt.toIntOr : XInt → Int → Int
  | .int n, _ => n
  | .posInf, d => d
  | .negInf, d => d

/-- The state of an `IntegerPicker`: the three integer fields plus the two
configuration flags read by `_change_value`.  (Rendering-related fields such
as the display widget, bars, step and jump lengths are not part of the value
logic; step/jump lengths enter `_change_value` only as the summand.) -/
structure IntegerPicker where
  value : Int
  minimum : Int
  maximum : Int
  ascending : Bool
  return_unused_navigation_input : Bool
deriving DecidableEq, Repr

/-- The constructor's assertions: `min_v <= max_v` and
`min_v <= value <= max_v`; a failed assertion means no object is created. -/
def make (value min_v max_v : Int) (ascending swallow_off : Bool) :
    Option IntegerPicker :=
  if min_v ≤ max_v ∧ min_v ≤ value ∧ value ≤ max_v then
    some ⟨value, min_v, max_v, ascending, swallow_off⟩
  else
    none

/-- Result of `_change_value`: the new state, the returned Bool, and the
list of `(value_before_input, value)` pairs passed to the
`on_selection_change` hook. -/
structure ChangeResult where
  state : IntegerPicker
  handled : Bool
  events : List (Int × Int)
deriving DecidableEq, Repr

/-- The tail of `_change_value` shared by all non-early-return paths: update
the display, fire the hook when the value changed, and return `True`. -/
def finishChange (before : IntegerPicker) (p : IntegerPicker) : ChangeResult :=
  { state := p
    handled := true
    events := if before.value = p.value then [] else [(before.value, p.value)] }

/-- Embedding of `IntegerPicker._change_value`. -/
def change_value (p : IntegerPicker) (summand : Summand) : ChangeResult :=
  if p.ascending then
    let new_value := xadd p.value summand
    if summand.isNeg then
      if p.value = p.minimum then
        ⟨p, !p.return_unused_navigation_input, []⟩
      else if new_value.gtInt p.minimum then
        finishChange p { p with value := new_value.toIntOr p.value }
      else
        finishChange p { p with value := p.minimum }
    else if summand.isPos then
      if p.value = p.maximum then
        ⟨p, !p.return_unused_navigation_input, []⟩
      else if new_value.ltInt p.maximum then
        finishChange p { p with value := new_value.toIntOr p.value }
      else
        finishChange p { p with value := p.maximum }
    else
      finishChange p p
  else
    let new_value := xsub p.value summand
    if summand.isNeg then
      if p.value = p.maximum then
        ⟨p, !p.return_unused_navigation_input, []⟩
      else if new_value.ltInt p.maximum then
        finishChange p { p with value := new_value.toIntOr p.value }
      else
        finishChange p { p with value := p.maximum }
    else if summand.isPos then
      if p.value = p.minimum then
        ⟨p, !p.return_unused_navigation_input, []⟩
      else if new_value.gtInt p.minimum then
        finishChange p { p with value := new_value.toIntOr p.value }
      else
        finishChange p { p with value := p.minimum }
    else
      finishChange p p

/-- The kinds of `ValueError` the setters can raise. -/
inductive PickerError where
  | valueOutOfRange
  | minAboveMax
  | maxBelowMin
deriving DecidableEq, Repr

/-- Result of a successful setter call: the new state and the hook
invocations. -/
structure SetResult where
  state : IntegerPicker
  events : List (Int × Int)
deriving DecidableEq, Repr

/-- Embedding of `IntegerPicker.set_value`. -/
def set_value (p : IntegerPicker) (value : Int) :
    Except PickerError SetResult :=
  if p.minimum ≤ value ∧ value ≤ p.maximum then
    if value = p.value then
      .ok ⟨p, []⟩
    else
      .ok ⟨{ p with value := value }, [(p.value, value)]⟩
  else
    .error .valueOutOfRange

/-- Embedding of `IntegerPicker.set_to_minimum`. -/
def set_to_minimum (p : IntegerPicker) : Except PickerError SetResult :=
  set_value p p.minimum

/-- Embedding of `IntegerPicker.set_to_maximum`. -/
def set_to_maximum (p : IntegerPicker) : Except PickerError SetResult :=
  set_value p p.maximum

/-- Embedding of `IntegerPicker.set_minimum`. -/
def set_minimum (p : IntegerPicker) (new_min : Int) :
    Except PickerError SetResult :=
  if p.maximum < new_min then
    .error .minAboveMax
  else
    let p1 := { p with minimum := new_min }
    if p1.value < new_min then
      set_to_minimum p1
    else
      .ok ⟨p1, []⟩

/-- Embedding of `IntegerPicker.set_maximum`. -/
def set_maximum (p : IntegerPicker) (new_max : Int) :
    Except PickerError SetResult :=
  if new_max < p.minimum then
    .error .maxBelowMin
  else
    let p1 := { p with maximum := new_max }
    if new_max < p1.value then
      set_to_maximum p1
    else
      .ok ⟨p1, []⟩

/-- One abstract operation on the selector. -/
inductive Op where
  | delta (s : Summand)
  | setVal (v : Int)
  | setMin (v : Int)
  | setMax (v : Int)
deriving DecidableEq, Repr

/-- The state after running one operation (a raised `ValueError` leaves the
state unchanged, exactly as in the Python code, which raises before any
mutation). -/
def applyOp (p : IntegerPicker) : Op → IntegerPicker
  | .delta s => (change_value p s).state
  | .setVal v =>
    match set_value p v with
    | .ok r => r.state
    | .error _ => p
  | .setMin v =>
    match set_minimum p v with
    | .ok r => r.state
    | .error _ => p
  | .setMax v =>
    match set_maximum p v with
    | .ok r => r.state
    | .error _ => p

/-- The hook invocations of one operation. -/
def opEvents (p : IntegerPicker) : Op → List (Int × Int)
  | .delta s => (change_value p s).events
  | .setVal v =>
    match set_value p v with
    | .ok r => r.events
    | .error _ => []
  | .setMin v =>
    match set_minimum p v with
    | .ok r => r.events
    | .error _ => []
  | .setMax v =>
    match set_maximum p v with
    | .ok r => r.events
    | .error _ => []

/-- Run a sequence of operations from a state. -/
def runOps (p : IntegerPicker) (ops : List Op) : IntegerPicker :=
  ops.foldl applyOp p

/-- The bounds invariant: `minimum ≤ value ≤ maximum` (together with the
ordering of the bounds themselves, which the constructor also asserts). -/
def BoundsInv (p : IntegerPicker) : Prop :=
  p.minimum ≤ p.value ∧ p.value ≤ p.maximum ∧ p.minimum ≤ p.maximum

instance (p : IntegerPicker) : Decidable (BoundsInv p) := by
  unfold BoundsInv; infer_instance

theorem change_value_inv (p : IntegerPicker) (s : Summand)
    (h : BoundsInv p) : BoundsInv (change_value p s).state := by
  obtain ⟨h1, h2, h3⟩ := h
  cases s <;>
    simp only [change_value, Summand.isNeg, Summand.isPos, xadd, xsub,
      XInt.gtInt, XInt.ltInt, XInt.toIntOr, finishChange,
      decide_eq_true_eq] <;>
    split_ifs <;> dsimp only [BoundsInv] <;> omega

theorem set_value_inv (p : IntegerPicker) (v : Int) (r : SetResult)
    (h : BoundsInv p) (hr : set_value p v = .ok r) : BoundsInv r.state := by
  obtain ⟨h1, h2, h3⟩ := h
  unfold set_value at hr
  split_ifs at hr with hrange heq <;> injection hr with hr <;> subst hr <;>
    simp_all [BoundsInv]

theorem set_minimum_inv (p : IntegerPicker) (v : Int) (r : SetResult)
    (h : BoundsInv p) (hr : set_minimum p v = .ok r) : BoundsInv r.state := by
  obtain ⟨h1, h2, h3⟩ := h
  simp only [set_minimum, set_to_minimum, set_value] at hr
  split_ifs at hr <;> injection hr with hr <;> subst hr <;>
    dsimp only [BoundsInv] <;> omega

theorem set_maximum_inv (p : IntegerPicker) (v : Int) (r : SetResult)
    (h : BoundsInv p) (hr : set_maximum p v = .ok r) : BoundsInv r.state := by
  obtain ⟨h1, h2, h3⟩ := h
  simp only [set_maximum, set_to_maximum, set_value] at hr
  split_ifs at hr <;> injection hr with hr <;> subst hr <;>
    dsimp only [BoundsInv] <;> omega

theorem applyOp_inv (p : IntegerPicker) (op : Op) (h : BoundsInv p) :
    BoundsInv (applyOp p op) := by
  cases op with
  | delta s => exact change_value_inv p s h
  | setVal v =>
    simp only [applyOp]
    rcases hv : set_value p v with e | r
    · exact h
    · exact set_value_inv p v r h hv
  | setMin v =>
    simp only [applyOp]
    rcases hv : set_minimum p v with e | r
    · exact h
    · exact set_minimum_inv p v r h hv
  | setMax v =>
    simp only [applyOp]
    rcases hv : set_maximum p v with e | r
    · exact h
    · exact set_maximum_inv p v r h hv

theorem runOps_inv (p : IntegerPicker) (ops : List Op) (h : BoundsInv p) :
    BoundsInv (runOps p ops) := by
  induction ops generalizing p with
  | nil => exact h
  | cons op ops ih =>
    simp only [runOps, List.foldl_cons] at *
    exact ih (applyOp p op) (applyOp_inv p op h)

/-- C1: for every validly constructed selector (construction asserts
`minimum ≤ value ≤ maximum` and `minimum ≤ maximum`), the predicate
`minimum ≤ value ≤ maximum` holds immediately after construction and is
preserved by every sequence of `_change_value`, `set_value`, `set_minimum`
and `set_maximum` calls. -/
theorem bounds_invariant (value min_v max_v : Int) (a sw : Bool)
    (p : IntegerPicker) (h : make value min_v max_v a sw = some p)
    (ops : List Op) : BoundsInv p ∧ BoundsInv (runOps p ops) := by
  unfold make at h
  split_ifs at h with hc
  injection h with h
  subst h
  have hp : BoundsInv ⟨value, min_v, max_v, a, sw⟩ :=
    ⟨hc.2.1, hc.2.2, hc.1⟩
  exact ⟨hp, runOps_inv _ ops hp⟩

/-- C2: if `value` sits at the low bound relevant to the current direction
(`minimum` when ascending, `maximum` when descending) and the summand is
decreasing, `_change_value` leaves the state unchanged, fires no hook, and
returns `not return_unused_navigation_input` (so `False` when exhausted
input is passed on and `True` when it is swallowed); repeating the call is
idempotent and returns the same result. -/
theorem exhausted_input_at_bound (p : IntegerPicker) (s : Summand)
    (hlow : p.value = (if p.ascending then p.minimum else p.maximum))
    (hneg : s.isNeg = true) :
    (change_value p s).state = p ∧
    (change_value p s).events = [] ∧
    (change_value p s).handled = !p.return_unused_navigation_input ∧
    change_value (change_value p s).state s = change_value p s := by
  have key : change_value p s = ⟨p, !p.return_unused_navigation_input, []⟩ := by
    cases hb : p.ascending <;> simp only [hb, Bool.false_eq_true, if_true,
      if_false, ite_true, ite_false] at hlow <;>
      simp [change_value, hb, hneg, hlow]
  simp [key]

theorem exhausted_input_at_bound_witness :
    ((change_value ⟨0, 0, 10, true, false⟩ (.int (-1))).state =
        ⟨0, 0, 10, true, false⟩ ∧
      (change_value ⟨0, 0, 10, true, false⟩ (.int (-1))).events = [] ∧
      (change_value ⟨0, 0, 10, true, false⟩ (.int (-1))).handled = !false ∧
      change_value (change_value ⟨0, 0, 10, true, false⟩ (.int (-1))).state
        (.int (-1)) = change_value ⟨0, 0, 10, true, false⟩ (.int (-1))) ∧
    ((change_value ⟨0, 0, 10, true, true⟩ (.int (-1))).state =
        ⟨0, 0, 10, true, true⟩ ∧
      (change_value ⟨0, 0, 10, true, true⟩ (.int (-1))).events = [] ∧
      (change_value ⟨0, 0, 10, true, true⟩ (.int (-1))).handled = !true ∧
      change_value (change_value ⟨0, 0, 10, true, true⟩ (.int (-1))).state
        (.int (-1)) = change_value ⟨0, 0, 10, true, true⟩ (.int (-1))) :=
  ⟨exhausted_input_at_bound ⟨0, 0, 10, true, false⟩ (.int (-1))
      (by decide) (by decide),
    exhausted_input_at_bound ⟨0, 0, 10, true, true⟩ (.int (-1))
      (by decide) (by decide)⟩

/-- C3: every operation fires the `on_selection_change` hook exactly once,
with arguments `(previous_value, new_value)`, when it changes `value`, and
fires it not at all when `value` is unchanged (clamped no-op, equal
assignment, or raised error). -/
theorem on_change_exactly_on_change (p : IntegerPicker) (op : Op) :
    opEvents p op =
      (if p.value = (applyOp p op).value then []
       else [(p.value, (applyOp p op).value)]) := by
  cases op with
  | delta s =>
    cases s <;>
      simp only [applyOp, opEvents, change_value, Summand.isNeg,
        Summand.isPos, xadd, xsub, XInt.gtInt, XInt.ltInt, XInt.toIntOr,
        finishChange, decide_eq_true_eq] <;>
      split_ifs <;> (try dsimp only at *) <;>
      first | rfl | (exfalso; omega)
  | setVal v =>
    simp only [applyOp, opEvents, set_value]
    split_ifs <;> (try dsimp only at *) <;>
      first | rfl | (exfalso; omega)
  | setMin v =>
    simp only [applyOp, opEvents, set_minimum, set_to_minimum, set_value]
    split_ifs <;> (try dsimp only at *) <;>
      first | rfl | (exfalso; omega)
  | setMax v =>
    simp only [applyOp, opEvents, set_maximum, set_to_maximum, set_value]
    split_ifs <;> (try dsimp only at *) <;>
      first | rfl | (exfalso; omega)

/-- C4: with `ascending = false`, `_change_value` on a summand behaves
exactly as the ascending logic on the negated summand: same resulting
value, same returned Bool, same hook invocations. -/
theorem descending_is_negated_ascending (p : IntegerPicker) (s : Summand)
    (h : p.ascending = false) :
    (change_value p s).state.value =
      (change_value { p with ascending := true } s.neg).state.value ∧
    (change_value p s).handled =
      (change_value { p with ascending := true } s.neg).handled ∧
    (change_value p s).events =
      (change_value { p with ascending := true } s.neg).events := by
  cases s <;>
    simp only [change_value, h, Summand.neg, Summand.isNeg, Summand.isPos,
      xadd, xsub, XInt.gtInt, XInt.ltInt, XInt.toIntOr, finishChange,
      decide_eq_true_eq, Bool.false_eq_true, if_true, if_false, ite_true,
      ite_false] <;>
    split_ifs <;> (try dsimp only at *) <;> refine ⟨?_, ?_, ?_⟩ <;>
    first | rfl | omega

theorem descending_is_negated_ascending_witness :
    (change_value ⟨5, 0, 10, false, true⟩ (.int 2)).state.value =
      (change_value ⟨5, 0, 10, true, true⟩ (.int (-2))).state.value ∧
    (change_value ⟨5, 0, 10, false, true⟩ (.int 2)).handled =
      (change_value ⟨5, 0, 10, true, true⟩ (.int (-2))).handled ∧
    (change_value ⟨5, 0, 10, false, true⟩ (.int 2)).events =
      (change_value ⟨5, 0, 10, true, true⟩ (.int (-2))).events :=
  descending_is_negated_ascending ⟨5, 0, 10, false, true⟩ (.int 2) rfl

/-- C5: the `+∞` sentinel (the `end` key) always sets `value` to `maximum`
when ascending and to `minimum` when descending, whatever the current
value, and fires the hook exactly once precisely when the value changed. -/
theorem posInf_sentinel (p : IntegerPicker) :
    (change_value p .posInf).state.value =
      (if p.ascending then p.maximum else p.minimum) ∧
    (change_value p .posInf).events =
      (if p.value = (if p.ascending then p.maximum else p.minimum) then []
       else [(p.value, if p.ascending then p.maximum else p.minimum)]) := by
  cases hb : p.ascending <;>
    simp only [hb, change_value, Summand.isNeg, Summand.isPos, xadd, xsub,
      XInt.gtInt, XInt.ltInt, XInt.toIntOr, finishChange,
      Bool.false_eq_true, if_true, if_false, ite_true, ite_false] <;>
    split_ifs <;> simp_all

/-- C10: a zero summand is reported as handled (`True`) while leaving the
whole state unchanged and firing no hook, for either value of
`ascending`. -/
theorem zero_delta (p : IntegerPicker) :
    change_value p (.int 0) = ⟨p, true, []⟩ := by
  cases hb : p.ascending <;>
    simp [change_value, hb, Summand.isNeg, Summand.isPos, finishChange]

theorem bounds_invariant_witness :
    BoundsInv ⟨0, 0, 10, true, true⟩ ∧
      BoundsInv (runOps ⟨0, 0, 10, true, true⟩
        [.delta (.int 7), .delta .posInf, .setMin 3, .setVal 4,
         .setMax 2, .delta (.int (-100)), .delta .negInf]) :=
  bounds_invariant 0 0 10 true true ⟨0, 0, 10, true, true⟩ (by decide)
    [.delta (.int 7), .delta .posInf, .setMin 3, .setVal 4,
     .setMax 2, .delta (.int (-100)), .delta .negInf]

/-- C6 counterexample: with `minimum = maximum = 0`, `jump_length = 1`,
`ascending = true` and `value = minimum`, the preconditions of the claim
hold (`maximum - minimum = 0 < 1`), but `_change_value` takes the
early-return path for an already-reached bound and fires no hook, so the
claimed `on_change(minimum, maximum)` invocation does not happen. -/
theorem overshoot_jump_cex :
    ¬ ((change_value ⟨0, 0, 0, true, true⟩ (.int 1)).state.value = 0 ∧
      (change_value ⟨0, 0, 0, true, true⟩ (.int 1)).events = [(0, 0)]) := by
  decide

/-- C6 (amended with `minimum < maximum`, which the counterexample at
`minimum = maximum` forces): for an ascending selector at `value = minimum`
with `maximum - minimum < j`, `_change_value j` clamps the value to
`maximum` and fires the hook once with `(minimum, maximum)`. -/
theorem overshoot_jump_clamps (p : IntegerPicker) (j : Int)
    (hasc : p.ascending = true) (hval : p.value = p.minimum)
    (hlt : p.minimum < p.maximum) (hover : p.maximum - p.minimum < j) :
    (change_value p (.int j)).state.value = p.maximum ∧
    (change_value p (.int j)).events = [(p.minimum, p.maximum)] := by
  have hj : 0 < j := by omega
  simp only [change_value, hasc, Summand.isNeg, Summand.isPos, xadd,
    XInt.ltInt, XInt.toIntOr, finishChange, decide_eq_true_eq, if_true,
    ite_true]
  split_ifs <;> (try dsimp only) <;>
    first | (exfalso; omega) | exact ⟨rfl, by rw [hval]⟩

theorem overshoot_jump_clamps_witness :
    (change_value ⟨0, 0, 10, true, true⟩ (.int 11)).state.value = 10 ∧
    (change_value ⟨0, 0, 10, true, true⟩ (.int 11)).events = [(0, 10)] :=
  overshoot_jump_clamps ⟨0, 0, 10, true, true⟩ 11 rfl rfl
    (by decide) (by decide)

/-- C7: `set_value` raises a range error (leaving the state unchanged and
firing no hook) when the argument is out of range, is a no-op without hook
when the argument equals the current value, and otherwise updates the value
and fires `on_change(old_value, new_value)`. -/
theorem set_value_contract (p : IntegerPicker) (v : Int) (h : BoundsInv p) :
    (¬ (p.minimum ≤ v ∧ v ≤ p.maximum) →
      set_value p v = .error .valueOutOfRange ∧
      applyOp p (.setVal v) = p ∧ opEvents p (.setVal v) = []) ∧
    (v = p.value → set_value p v = .ok ⟨p, []⟩) ∧
    ((p.minimum ≤ v ∧ v ≤ p.maximum) → v ≠ p.value →
      set_value p v = .ok ⟨{ p with value := v }, [(p.value, v)]⟩) := by
  obtain ⟨h1, h2, h3⟩ := h
  refine ⟨?_, ?_, ?_⟩
  · intro hr
    have he : set_value p v = .error .valueOutOfRange := by
      simp only [set_value]
      rw [if_neg hr]
    exact ⟨he, by simp [applyOp, he], by simp [opEvents, he]⟩
  · intro he
    subst he
    simp [set_value, h1, h2]
  · intro hr hne
    simp only [set_value]
    rw [if_pos hr, if_neg hne]

theorem set_value_contract_witness :
    (¬ ((0 : Int) ≤ 12 ∧ (12 : Int) ≤ 10) →
      set_value ⟨5, 0, 10, true, true⟩ 12 = .error .valueOutOfRange ∧
      applyOp ⟨5, 0, 10, true, true⟩ (.setVal 12) = ⟨5, 0, 10, true, true⟩ ∧
      opEvents ⟨5, 0, 10, true, true⟩ (.setVal 12) = []) ∧
    ((12 : Int) = 5 → set_value ⟨5, 0, 10, true, true⟩ 12 =
      .ok ⟨⟨5, 0, 10, true, true⟩, []⟩) ∧
    (((0 : Int) ≤ 12 ∧ (12 : Int) ≤ 10) → (12 : Int) ≠ 5 →
      set_value ⟨5, 0, 10, true, true⟩ 12 =
        .ok ⟨⟨12, 0, 10, true, true⟩, [(5, 12)]⟩) :=
  set_value_contract ⟨5, 0, 10, true, true⟩ 12 (by decide)

/-- C8: for every selector and every `v` with `value < v ≤ maximum`,
raising the minimum to `v` succeeds, clamps `value` up to `v` through the
`set_value` path, and fires `on_change(old_value, v)` exactly once; and,
independently, for every selector and every `w` with
`minimum ≤ w < value`, lowering the maximum to `w` clamps `value` down to
it with one `on_change(old_value, w)`. -/
theorem bound_adjustment_clamps :
    (∀ (p : IntegerPicker) (v : Int), v ≤ p.maximum → p.value < v →
      set_minimum p v =
        .ok ⟨{ p with minimum := v, value := v }, [(p.value, v)]⟩) ∧
    (∀ (p : IntegerPicker) (w : Int), p.minimum ≤ w → w < p.value →
      set_maximum p w =
        .ok ⟨{ p with maximum := w, value := w }, [(p.value, w)]⟩) := by
  constructor
  · intro p v hv1 hv2
    simp only [set_minimum, set_to_minimum, set_value]
    split_ifs <;> first | rfl | (exfalso; omega)
  · intro p w hw1 hw2
    simp only [set_maximum, set_to_maximum, set_value]
    split_ifs <;> first | rfl | (exfalso; omega)

theorem bound_adjustment_clamps_witness :
    (set_minimum ⟨5, 0, 10, true, true⟩ 7 =
      .ok ⟨⟨7, 7, 10, true, true⟩, [(5, 7)]⟩ ∧
      set_minimum ⟨0, 0, 10, true, true⟩ 4 =
        .ok ⟨⟨4, 4, 10, true, true⟩, [(0, 4)]⟩) ∧
    (set_maximum ⟨5, 0, 10, true, true⟩ 3 =
      .ok ⟨⟨3, 0, 3, true, true⟩, [(5, 3)]⟩ ∧
      set_maximum ⟨10, 0, 10, true, true⟩ 6 =
        .ok ⟨⟨6, 0, 6, true, true⟩, [(10, 6)]⟩) :=
  ⟨⟨bound_adjustment_clamps.1 ⟨5, 0, 10, true, true⟩ 7
        (by decide) (by decide),
      bound_adjustment_clamps.1 ⟨0, 0, 10, true, true⟩ 4
        (by decide) (by decide)⟩,
    ⟨bound_adjustment_clamps.2 ⟨5, 0, 10, true, true⟩ 3
        (by decide) (by decide),
      bound_adjustment_clamps.2 ⟨10, 0, 10, true, true⟩ 6
        (by decide) (by decide)⟩⟩

/-- C9: a bound adjustment that would invert the bounds raises an ordering
error before any mutation: the state (value, minimum, maximum) is unchanged
and no hook fires, for `set_minimum` above the maximum and `set_maximum`
below the minimum alike. -/
theorem bound_setter_error_atomic (p : IntegerPicker) (v w : Int)
    (hv : p.maximum < v) (hw : w < p.minimum) :
    set_minimum p v = .error .minAboveMax ∧
    set_maximum p w = .error .maxBelowMin ∧
    applyOp p (.setMin v) = p ∧ opEvents p (.setMin v) = [] ∧
    applyOp p (.setMax w) = p ∧ opEvents p (.setMax w) = [] := by
  have hm : set_minimum p v = .error .minAboveMax := by
    simp only [set_minimum]
    rw [if_pos hv]
  have hM : set_maximum p w = .error .maxBelowMin := by
    simp only [set_maximum]
    rw [if_pos hw]
  exact ⟨hm, hM, by simp [applyOp, hm], by simp [opEvents, hm],
    by simp [applyOp, hM], by simp [opEvents, hM]⟩

theorem bound_setter_error_atomic_witness :
    set_minimum ⟨5, 0, 10, true, true⟩ 11 = .error .minAboveMax ∧
    set_maximum ⟨5, 0, 10, true, true⟩ (-1) = .error .maxBelowMin ∧
    applyOp ⟨5, 0, 10, true, true⟩ (.setMin 11) = ⟨5, 0, 10, true, true⟩ ∧
    opEvents ⟨5, 0, 10, true, true⟩ (.setMin 11) = [] ∧
    applyOp ⟨5, 0, 10, true, true⟩ (.setMax (-1)) = ⟨5, 0, 10, true, true⟩ ∧
    opEvents ⟨5, 0, 10, true, true⟩ (.setMax (-1)) = [] :=
  bound_setter_error_atomic ⟨5, 0, 10, true, true⟩ 11 (-1)
    (by decide) (by decide)
